import Mathlib

/-!
Verification of the SafeComms moderation-API client (`src/lib.rs`).

The development shallowly embeds the client: JSON values and the textual JSON
grammar accepted by `serde_json::from_str`, the serde-derived serializers and
deserializers of the request/response structs, the `SafeCommsError` taxonomy,
client construction (`SafeCommsClient::new`) and the four operations
(`moderate_text`, `moderate_image`, `moderate_image_file`, `get_usage`).
The HTTP transport and the filesystem are parameters (`send`, `fs`): the Rust
code treats them as black boxes, and the theorems quantify over them.
-/

/-- JSON values, as produced by `serde_json` parsing.  Numbers keep their
source lexeme: none of the structs deserialized by this client reads a
non-integer number, and integer decoding inspects the lexeme directly. -/
inductive Json where
  | null
  | bool (b : Bool)
  | num (lexeme : String)
  | str (s : String)
  | arr (elems : List Json)
  | obj (fields : List (String × Json))
deriving Repr

/-- ASCII decimal digit test used by the JSON number grammar. -/
def isDigit (c : Char) : Bool := '0' ≤ c && c ≤ '9'

/-- JSON insignificant whitespace (space, tab, line feed, carriage return). -/
def skipWs : List Char → List Char
  | c :: cs => if c = ' ' || c = '\t' || c = '\n' || c = '\r' then skipWs cs else c :: cs
  | [] => []

/-- Value of one hexadecimal digit, for `\uXXXX` escapes. -/
def hexVal (c : Char) : Option Nat :=
  if '0' ≤ c ∧ c ≤ '9' then some (c.toNat - '0'.toNat)
  else if 'a' ≤ c ∧ c ≤ 'f' then some (c.toNat - 'a'.toNat + 10)
  else if 'A' ≤ c ∧ c ≤ 'F' then some (c.toNat - 'A'.toNat + 10)
  else none

/-- Longest prefix of decimal digits, with the rest of the input. -/
def takeDigits : List Char → List Char × List Char
  | c :: cs =>
    if isDigit c then
      let p := takeDigits cs
      (c :: p.1, p.2)
    else ([], c :: cs)
  | [] => ([], [])

/-- Body of a JSON string after the opening quote, following `serde_json`:
raw control characters are refused, the short escapes and `\uXXXX` (with
surrogate pairs) are decoded, and a lone surrogate is an error. -/
def parseStringBody : Nat → List Char → List Char → Option (String × List Char)
  | 0, _, _ => none
  | _ + 1, _, [] => none
  | fuel + 1, acc, c :: cs =>
    if c = '"' then some (String.mk acc.reverse, cs)
    else if c = '\\' then
      match cs with
      | [] => none
      | e :: cs1 =>
        if e = '"' then parseStringBody fuel ('"' :: acc) cs1
        else if e = '\\' then parseStringBody fuel ('\\' :: acc) cs1
        else if e = '/' then parseStringBody fuel ('/' :: acc) cs1
        else if e = 'b' then parseStringBody fuel ('\x08' :: acc) cs1
        else if e = 'f' then parseStringBody fuel ('\x0C' :: acc) cs1
        else if e = 'n' then parseStringBody fuel ('\n' :: acc) cs1
        else if e = 'r' then parseStringBody fuel ('\r' :: acc) cs1
        else if e = 't' then parseStringBody fuel ('\t' :: acc) cs1
        else if e = 'u' then
          match cs1 with
          | h1 :: h2 :: h3 :: h4 :: cs2 =>
            match hexVal h1, hexVal h2, hexVal h3, hexVal h4 with
            | some a, some b, some c2, some d =>
              let n := ((a * 16 + b) * 16 + c2) * 16 + d
              if 0xD800 ≤ n ∧ n ≤ 0xDBFF then
                match cs2 with
                | '\\' :: 'u' :: g1 :: g2 :: g3 :: g4 :: cs3 =>
                  match hexVal g1, hexVal g2, hexVal g3, hexVal g4 with
                  | some a2, some b2, some c3, some d2 =>
                    let m := ((a2 * 16 + b2) * 16 + c3) * 16 + d2
                    if 0xDC00 ≤ m ∧ m ≤ 0xDFFF then
                      parseStringBody fuel
                        (Char.ofNat (0x10000 + (n - 0xD800) * 0x400 + (m - 0xDC00)) :: acc) cs3
                    else none
                  | _, _, _, _ => none
                | _ => none
              else if 0xDC00 ≤ n ∧ n ≤ 0xDFFF then none
              else parseStringBody fuel (Char.ofNat n :: acc) cs2
            | _, _, _, _ => none
          | _ => none
        else none
    else if c.toNat < 0x20 then none
    else parseStringBody fuel (c :: acc) cs

/-- JSON number grammar `-? (0 | [1-9][0-9]*) (. [0-9]+)? ([eE][+-]?[0-9]+)?`,
returning the accepted lexeme and the remaining input. -/
def parseNumber (cs : List Char) : Option (String × List Char) :=
  let headMinus : List Char × List Char :=
    match cs with
    | '-' :: r => (['-'], r)
    | _ => ([], cs)
  match headMinus.2 with
  | c :: cs2 =>
    if ¬ isDigit c then none
    else
      let intPart : List Char × List Char :=
        if c = '0' then ([c], cs2)
        else
          let p := takeDigits cs2
          (c :: p.1, p.2)
      let fracRes : Option (List Char × List Char) :=
        match intPart.2 with
        | '.' :: r =>
          let p := takeDigits r
          if p.1.isEmpty then none else some ('.' :: p.1, p.2)
        | _ => some ([], intPart.2)
      match fracRes with
      | none => none
      | some (fracPart, rest2) =>
        let expRes : Option (List Char × List Char) :=
          match rest2 with
          | e :: r =>
            if e = 'e' ∨ e = 'E' then
              let signed : List Char × List Char :=
                match r with
                | s :: r2 => if s = '+' ∨ s = '-' then ([s], r2) else ([], r)
                | [] => ([], [])
              let p := takeDigits signed.2
              if p.1.isEmpty then none else some (e :: (signed.1 ++ p.1), p.2)
            else some ([], rest2)
          | [] => some ([], rest2)
        match expRes with
        | none => none
        | some (expPart, rest3) =>
          some (String.mk (headMinus.1 ++ intPart.1 ++ fracPart ++ expPart), rest3)
  | [] => none

mutual

/-- One JSON value (fuel-indexed recursive descent over `serde_json`'s
grammar).  The fuel only bounds recursion depth; `jsonParse` supplies more
than any input can consume. -/
def parseValue : Nat → List Char → Option (Json × List Char)
  | 0, _ => none
  | fuel + 1, cs =>
    match skipWs cs with
    | [] => none
    | c :: rest =>
      if c = 'n' then
        match rest with
        | 'u' :: 'l' :: 'l' :: r => some (Json.null, r)
        | _ => none
      else if c = 't' then
        match rest with
        | 'r' :: 'u' :: 'e' :: r => some (Json.bool true, r)
        | _ => none
      else if c = 'f' then
        match rest with
        | 'a' :: 'l' :: 's' :: 'e' :: r => some (Json.bool false, r)
        | _ => none
      else if c = '"' then
        match parseStringBody (fuel + 1) [] rest with
        | some (s, r) => some (Json.str s, r)
        | none => none
      else if c = '[' then
        match skipWs rest with
        | ']' :: r => some (Json.arr [], r)
        | cs2 => parseElements fuel cs2 []
      else if c = '{' then
        match skipWs rest with
        | '}' :: r => some (Json.obj [], r)
        | cs2 => parseMembers fuel cs2 []
      else
        match parseNumber (c :: rest) with
        | some (lex, r) => some (Json.num lex, r)
        | none => none

/-- Elements of a non-empty JSON array after `[`. -/
def parseElements : Nat → List Char → List Json → Option (Json × List Char)
  | 0, _, _ => none
  | fuel + 1, cs, acc =>
    match parseValue fuel cs with
    | none => none
    | some (v, rest) =>
      match skipWs rest with
      | ',' :: r => parseElements fuel r (v :: acc)
      | ']' :: r => some (Json.arr (v :: acc).reverse, r)
      | _ => none

/-- Members of a non-empty JSON object after `{`. -/
def parseMembers : Nat → List Char → List (String × Json) → Option (Json × List Char)
  | 0, _, _ => none
  | fuel + 1, cs, acc =>
    match skipWs cs with
    | '"' :: r =>
      match parseStringBody (fuel + 1) [] r with
      | none => none
      | some (k, rest) =>
        match skipWs rest with
        | ':' :: r2 =>
          match parseValue fuel r2 with
          | none => none
          | some (v, rest2) =>
            match skipWs rest2 with
            | ',' :: r3 => parseMembers fuel r3 ((k, v) :: acc)
            | '}' :: r3 => some (Json.obj ((k, v) :: acc).reverse, r3)
            | _ => none
        | _ => none
    | _ => none

end

/-- `serde_json::from_str`'s parsing phase: one complete JSON value, with
nothing but whitespace after it. -/
def jsonParse (s : String) : Option Json :=
  match parseValue (4 * (s.length + 1)) s.data with
  | some (v, rest) => if (skipWs rest).isEmpty then some v else none
  | none => none

example : jsonParse "oops" = none := by rfl
example : jsonParse "null" = some Json.null := by rfl
example : jsonParse " \x7b \x7d " = some (Json.obj []) := by rfl
example : jsonParse "\x7b\"detail\":\"D\"\x7d" = some (Json.obj [("detail", Json.str "D")]) := by
  rfl
example : jsonParse "\x7b\"detail\":123\x7d" = some (Json.obj [("detail", Json.num "123")]) := by
  rfl
example : jsonParse "[true, false, 1.5e2]" =
    some (Json.arr [Json.bool true, Json.bool false, Json.num "1.5e2"]) := by rfl
example : jsonParse "\x7b\"a\":1," = none := by rfl
example : jsonParse "01" = none := by rfl

/-! ## serde deserializers of the response structs

Each `deserialize…` below is the semantics of the `#[derive(Deserialize)]`
impl of the corresponding struct in `src/lib.rs`, applied to an already
parsed JSON value: a struct accepts a JSON object (fields in any order,
unknown fields ignored, a duplicate of a known field refused, a missing
`Option` field defaulting to `none`, a missing required field refused) or,
as `serde_json` also allows, an array of exactly the struct's fields in
declaration order. -/

/-- `ProblemDetails` (error-path body), `src/lib.rs` lines 99-103. -/
structure ProblemDetails where
  detail : Option String
  title : Option String
deriving Repr

/-- `ModerationIssue`, `src/lib.rs` lines 72-76. -/
structure ModerationIssue where
  term : Option String
  context : Option String
deriving Repr

/-- `AddonUsage`, `src/lib.rs` lines 78-84. -/
structure AddonUsage where
  replaced_unsafe : Bool
  replaced_pii : Bool
deriving Repr

/-- `ModerationResponse`, `src/lib.rs` lines 56-70.  `category_scores`
keeps the decoded entries as a list; the Rust `HashMap` retains one value
per key, which no property here depends on. -/
structure ModerationResponse where
  is_clean : Bool
  severity : Option String
  category_scores : Option (List (String × String))
  issues : Option (List ModerationIssue)
  reason : Option String
  is_bypass_attempt : Bool
  safe_content : Option String
  addons : Option AddonUsage
deriving Repr

/-- `UsageResponse`, `src/lib.rs` lines 86-97.  The `i32` fields are `Int`s
that decoding keeps within the `i32` range. -/
structure UsageResponse where
  tier : String
  rate_limit : Int
  token_limit : Option Int
  tokens_used : Int
  remaining_tokens : Int
deriving Repr

/-- serde `bool`: only a JSON boolean. -/
def decodeBool : Json → Option Bool
  | Json.bool b => some b
  | _ => none

/-- serde `String`: only a JSON string. -/
def decodeString : Json → Option String
  | Json.str s => some s
  | _ => none

/-- serde `Option<T>`: JSON `null` is `none`, anything else decodes as `T`. -/
def decodeOpt {o : Type} (f : Json → Option o) : Json → Option (Option o)
  | Json.null => some none
  | v => (f v).map some

/-- serde `Vec<T>`: a JSON array, every element decoding as `T`. -/
def decodeList {o : Type} (f : Json → Option o) : Json → Option (List o)
  | Json.arr elems =>
    elems.foldr
      (fun v acc =>
        match f v, acc with
        | some a, some l => some (a :: l)
        | _, _ => none)
      (some [])
  | _ => none

/-- serde `HashMap<String, String>`: a JSON object whose values are all
strings. -/
def decodeStringMap : Json → Option (List (String × String))
  | Json.obj fields =>
    fields.foldr
      (fun kv acc =>
        match decodeString kv.2, acc with
        | some s, some l => some ((kv.1, s) :: l)
        | _, _ => none)
      (some [])
  | _ => none

/-- An integer-valued JSON number lexeme, as an `Int`; a fraction or an
exponent makes `serde_json` treat the number as a float, which no integer
field accepts. -/
def intLexeme (lex : String) : Option Int :=
  let body : Bool × List Char :=
    match lex.data with
    | '-' :: r => (true, r)
    | cs => (false, cs)
  if body.2.isEmpty || ¬ body.2.all isDigit then none
  else
    let n : Nat := body.2.foldl (fun a c => a * 10 + (c.toNat - '0'.toNat)) 0
    some (if body.1 then -(n : Int) else (n : Int))

/-- serde `i32`: an integer-valued JSON number within the `i32` range. -/
def decodeI32 : Json → Option Int
  | Json.num lex =>
    match intLexeme lex with
    | some v => if -(2 ^ 31) ≤ v ∧ v < 2 ^ 31 then some v else none
    | none => none
  | _ => none

/-- Member scan of the derived `ProblemDetails` deserializer: one slot per
field, `none` while unseen; a second `detail` or `title` member is a
duplicate-field error; other members are ignored. -/
def pdLoop : List (String × Json) → Option (Option String) → Option (Option String) →
    Option ProblemDetails
  | [], d, t => some ⟨d.getD none, t.getD none⟩
  | (k, v) :: rest, d, t =>
    if k = "detail" then
      if d.isSome then none
      else
        match decodeOpt decodeString v with
        | some s => pdLoop rest (some s) t
        | none => none
    else if k = "title" then
      if t.isSome then none
      else
        match decodeOpt decodeString v with
        | some s => pdLoop rest d (some s)
        | none => none
    else pdLoop rest d t

/-- Derived `Deserialize` of `ProblemDetails` on a JSON value. -/
def deserializeProblemDetails : Json → Option ProblemDetails
  | Json.obj fields => pdLoop fields none none
  | Json.arr [v1, v2] =>
    match decodeOpt decodeString v1, decodeOpt decodeString v2 with
    | some d, some t => some ⟨d, t⟩
    | _, _ => none
  | _ => none

/-- `serde_json::from_str::<ProblemDetails>` (`src/lib.rs` line 146). -/
def parseProblemDetails (s : String) : Option ProblemDetails :=
  (jsonParse s).bind deserializeProblemDetails

/-- Member scan of the derived `ModerationIssue` deserializer. -/
def issueLoop : List (String × Json) → Option (Option String) → Option (Option String) →
    Option ModerationIssue
  | [], t, c => some ⟨t.getD none, c.getD none⟩
  | (k, v) :: rest, t, c =>
    if k = "term" then
      if t.isSome then none
      else
        match decodeOpt decodeString v with
        | some s => issueLoop rest (some s) c
        | none => none
    else if k = "context" then
      if c.isSome then none
      else
        match decodeOpt decodeString v with
        | some s => issueLoop rest t (some s)
        | none => none
    else issueLoop rest t c

/-- Derived `Deserialize` of `ModerationIssue` on a JSON value. -/
def decodeIssue : Json → Option ModerationIssue
  | Json.obj fields => issueLoop fields none none
  | Json.arr [v1, v2] =>
    match decodeOpt decodeString v1, decodeOpt decodeString v2 with
    | some t, some c => some ⟨t, c⟩
    | _, _ => none
  | _ => none

/-- Member scan of the derived `AddonUsage` deserializer: both fields
required. -/
def addonLoop : List (String × Json) → Option Bool → Option Bool → Option AddonUsage
  | [], some u, some p => some ⟨u, p⟩
  | [], _, _ => none
  | (k, v) :: rest, u, p =>
    if k = "replacedUnsafe" then
      if u.isSome then none
      else
        match decodeBool v with
        | some b => addonLoop rest (some b) p
        | none => none
    else if k = "replacedPii" then
      if p.isSome then none
      else
        match decodeBool v with
        | some b => addonLoop rest u (some b)
        | none => none
    else addonLoop rest u p

/-- Derived `Deserialize` of `AddonUsage` on a JSON value. -/
def decodeAddonUsage : Json → Option AddonUsage
  | Json.obj fields => addonLoop fields none none
  | Json.arr [v1, v2] =>
    match decodeBool v1, decodeBool v2 with
    | some u, some p => some ⟨u, p⟩
    | _, _ => none
  | _ => none

/-- Field slots of the `ModerationResponse` member scan. -/
structure MRSlots where
  is_clean : Option Bool
  severity : Option (Option String)
  category_scores : Option (Option (List (String × String)))
  issues : Option (Option (List ModerationIssue))
  reason : Option (Option String)
  is_bypass_attempt : Option Bool
  safe_content : Option (Option String)
  addons : Option (Option AddonUsage)

/-- Member scan of the derived `ModerationResponse` deserializer: wire
names `isClean`, `severity`, `categoryScores`, `issues`, `reason`,
`isBypassAttempt`, `safeContent`, `addons`; `isClean` and
`isBypassAttempt` required. -/
def mrLoop : List (String × Json) → MRSlots → Option ModerationResponse
  | [], s =>
    match s.is_clean, s.is_bypass_attempt with
    | some c, some b =>
      some ⟨c, s.severity.getD none, s.category_scores.getD none, s.issues.getD none,
            s.reason.getD none, b, s.safe_content.getD none, s.addons.getD none⟩
    | _, _ => none
  | (k, v) :: rest, s =>
    if k = "isClean" then
      if s.is_clean.isSome then none
      else
        match decodeBool v with
        | some b => mrLoop rest { s with is_clean := some b }
        | none => none
    else if k = "severity" then
      if s.severity.isSome then none
      else
        match decodeOpt decodeString v with
        | some x => mrLoop rest { s with severity := some x }
        | none => none
    else if k = "categoryScores" then
      if s.category_scores.isSome then none
      else
        match decodeOpt decodeStringMap v with
        | some x => mrLoop rest { s with category_scores := some x }
        | none => none
    else if k = "issues" then
      if s.issues.isSome then none
      else
        match decodeOpt (decodeList decodeIssue) v with
        | some x => mrLoop rest { s with issues := some x }
        | none => none
    else if k = "reason" then
      if s.reason.isSome then none
      else
        match decodeOpt decodeString v with
        | some x => mrLoop rest { s with reason := some x }
        | none => none
    else if k = "isBypassAttempt" then
      if s.is_bypass_attempt.isSome then none
      else
        match decodeBool v with
        | some b => mrLoop rest { s with is_bypass_attempt := some b }
        | none => none
    else if k = "safeContent" then
      if s.safe_content.isSome then none
      else
        match decodeOpt decodeString v with
        | some x => mrLoop rest { s with safe_content := some x }
        | none => none
    else if k = "addons" then
      if s.addons.isSome then none
      else
        match decodeOpt decodeAddonUsage v with
        | some x => mrLoop rest { s with addons := some x }
        | none => none
    else mrLoop rest s

/-- Derived `Deserialize` of `ModerationResponse` on a JSON value. -/
def deserializeModerationResponse : Json → Option ModerationResponse
  | Json.obj fields => mrLoop fields ⟨none, none, none, none, none, none, none, none⟩
  | Json.arr [v1, v2, v3, v4, v5, v6, v7, v8] =>
    match decodeBool v1, decodeOpt decodeString v2, decodeOpt decodeStringMap v3,
        decodeOpt (decodeList decodeIssue) v4, decodeOpt decodeString v5, decodeBool v6,
        decodeOpt decodeString v7, decodeOpt decodeAddonUsage v8 with
    | some c, some sv, some cs, some is, some rs, some bp, some sc, some ad =>
      some ⟨c, sv, cs, is, rs, bp, sc, ad⟩
    | _, _, _, _, _, _, _, _ => none
  | _ => none

/-- Field slots of the `UsageResponse` member scan. -/
structure UsageSlots where
  tier : Option String
  rate_limit : Option Int
  token_limit : Option (Option Int)
  tokens_used : Option Int
  remaining_tokens : Option Int

/-- Member scan of the derived `UsageResponse` deserializer: wire names
`tier`, `rateLimit`, `tokenLimit`, `tokensUsed`, `remainingTokens`; all but
`tokenLimit` required. -/
def usageLoop : List (String × Json) → UsageSlots → Option UsageResponse
  | [], s =>
    match s.tier, s.rate_limit, s.tokens_used, s.remaining_tokens with
    | some t, some rl, some tu, some rt => some ⟨t, rl, s.token_limit.getD none, tu, rt⟩
    | _, _, _, _ => none
  | (k, v) :: rest, s =>
    if k = "tier" then
      if s.tier.isSome then none
      else
        match decodeString v with
        | some x => usageLoop rest { s with tier := some x }
        | none => none
    else if k = "rateLimit" then
      if s.rate_limit.isSome then none
      else
        match decodeI32 v with
        | some x => usageLoop rest { s with rate_limit := some x }
        | none => none
    else if k = "tokenLimit" then
      if s.token_limit.isSome then none
      else
        match decodeOpt decodeI32 v with
        | some x => usageLoop rest { s with token_limit := some x }
        | none => none
    else if k = "tokensUsed" then
      if s.tokens_used.isSome then none
      else
        match decodeI32 v with
        | some x => usageLoop rest { s with tokens_used := some x }
        | none => none
    else if k = "remainingTokens" then
      if s.remaining_tokens.isSome then none
      else
        match decodeI32 v with
        | some x => usageLoop rest { s with remaining_tokens := some x }
        | none => none
    else usageLoop rest s

/-- Derived `Deserialize` of `UsageResponse` on a JSON value. -/
def deserializeUsageResponse : Json → Option UsageResponse
  | Json.obj fields => usageLoop fields ⟨none, none, none, none, none⟩
  | Json.arr [v1, v2, v3, v4, v5] =>
    match decodeString v1, decodeI32 v2, decodeOpt decodeI32 v3, decodeI32 v4, decodeI32 v5 with
    | some t, some rl, some tl, some tu, some rt => some ⟨t, rl, tl, tu, rt⟩
    | _, _, _, _, _ => none
  | _ => none

example : parseProblemDetails "\x7b\"detail\":\"D\"\x7d" = some ⟨some "D", none⟩ := by rfl
example : parseProblemDetails "\x7b\"title\":\"T\"\x7d" = some ⟨none, some "T"⟩ := by rfl
example : parseProblemDetails "\x7b\x7d" = some ⟨none, none⟩ := by rfl
example : parseProblemDetails "\x7b\"detail\":123\x7d" = none := by rfl
example : parseProblemDetails "\x7b\"x\":[1],\"title\":\"T\"\x7d" = some ⟨none, some "T"⟩ := by
  rfl
example : parseProblemDetails "oops" = none := by rfl
example : (jsonParse "\x7b\x7d").bind deserializeModerationResponse = none := by rfl
example :
    (jsonParse "\x7b\"isClean\":true,\"isBypassAttempt\":false\x7d").bind
      deserializeModerationResponse =
    some ⟨true, none, none, none, none, false, none, none⟩ := by rfl
example :
    (jsonParse "\x7b\"tier\":\"pro\",\"rateLimit\":100,\"tokensUsed\":5,\"remainingTokens\":95\x7d").bind
      deserializeUsageResponse = some ⟨"pro", 100, none, 5, 95⟩ := by rfl

/-! ## Client data model, error taxonomy and HTTP abstraction -/

/-- `SafeCommsError`, `src/lib.rs` lines 9-17.  `RequestError` is the
`#[from] reqwest::Error` variant (message "HTTP request failed"),
`ApiError` carries its formatted message, `SerializationError` is the
`#[from] serde_json::Error` variant. -/
inductive SafeCommsError where
  | RequestError (msg : String)
  | ApiError (msg : String)
  | SerializationError (msg : String)
deriving Repr

/-- True exactly on the serialization/deserialization error kind. -/
def SafeCommsError.isSerializationFailure : SafeCommsError → Bool
  | SafeCommsError.SerializationError _ => true
  | _ => false

/-- True exactly on the transport (`reqwest::Error`) error kind. -/
def SafeCommsError.isRequestFailure : SafeCommsError → Bool
  | SafeCommsError.RequestError _ => true
  | _ => false

/-- `DEFAULT_BASE_URL`, `src/lib.rs` line 7. -/
def DEFAULT_BASE_URL : String := "https://api.safecomms.dev"

/-- `SafeCommsClient`, `src/lib.rs` lines 19-24.  The `reqwest::Client`
handle carries no observable state and is left out; the operations take the
transport as a `send` parameter instead. -/
structure SafeCommsClient where
  base_url : String
  api_key : String

/-- Rust `str::trim_end_matches` with a `char` pattern: remove every
trailing occurrence of `c`. -/
def trimEndMatches (s : String) (c : Char) : String :=
  String.mk ((s.data.reverse.dropWhile (fun x => x = c)).reverse)

/-- `SafeCommsClient::new`, `src/lib.rs` lines 106-114. -/
def SafeCommsClient.new (api_key : String) (base_url : Option String) : SafeCommsClient :=
  { base_url := trimEndMatches (base_url.getD DEFAULT_BASE_URL) '/'
    api_key := api_key }

/-- Request URL of `moderate_text` (`src/lib.rs` line 135). -/
def SafeCommsClient.moderateTextUrl (c : SafeCommsClient) : String :=
  c.base_url ++ "/moderation/text"

/-- Request URL of `moderate_image` (`src/lib.rs` line 164). -/
def SafeCommsClient.moderateImageUrl (c : SafeCommsClient) : String :=
  c.base_url ++ "/moderation/image"

/-- Request URL of `moderate_image_file` (`src/lib.rs` line 229). -/
def SafeCommsClient.moderateImageUploadUrl (c : SafeCommsClient) : String :=
  c.base_url ++ "/moderation/image/upload"

/-- Request URL of `get_usage` (`src/lib.rs` line 254). -/
def SafeCommsClient.usageUrl (c : SafeCommsClient) : String :=
  c.base_url ++ "/usage"

/-- One part of a `reqwest::multipart::Form`: the byte part built with
`Part::bytes(..).file_name(..)` or a `form.text(..)` part. -/
inductive FormPart where
  | filePart (partName : String) (fileName : String) (bytes : List Nat)
  | textPart (partName : String) (value : String)
deriving Repr

/-- Body of an outgoing request: `.json(..)`, `.multipart(..)`, or none. -/
inductive RequestBody where
  | jsonBody (j : Json)
  | formBody (parts : List FormPart)
  | noBody

/-- An outgoing HTTP request as this client builds it. -/
structure HttpRequest where
  method : String
  url : String
  authHeader : String
  body : RequestBody

/-- An HTTP response: numeric status and body text.  (Reading the body is
modelled as infallible; a transport failure while reading would surface as
the same `RequestError` kind as a failed send.) -/
structure HttpResponse where
  status : Nat
  body : String

/-- `reqwest::StatusCode::is_success`: `200..=299`. -/
def isSuccessStatus (status : Nat) : Bool := 200 ≤ status && status ≤ 299

/-- Canonical reason phrase of the `http` crate's `StatusCode`. -/
def canonicalReason (code : Nat) : Option String :=
  match code with
  | 100 => some "Continue"
  | 101 => some "Switching Protocols"
  | 102 => some "Processing"
  | 200 => some "OK"
  | 201 => some "Created"
  | 202 => some "Accepted"
  | 203 => some "Non-Authoritative Information"
  | 204 => some "No Content"
  | 205 => some "Reset Content"
  | 206 => some "Partial Content"
  | 207 => some "Multi-Status"
  | 208 => some "Already Reported"
  | 226 => some "IM Used"
  | 300 => some "Multiple Choices"
  | 301 => some "Moved Permanently"
  | 302 => some "Found"
  | 303 => some "See Other"
  | 304 => some "Not Modified"
  | 305 => some "Use Proxy"
  | 307 => some "Temporary Redirect"
  | 308 => some "Permanent Redirect"
  | 400 => some "Bad Request"
  | 401 => some "Unauthorized"
  | 402 => some "Payment Required"
  | 403 => some "Forbidden"
  | 404 => some "Not Found"
  | 405 => some "Method Not Allowed"
  | 406 => some "Not Acceptable"
  | 407 => some "Proxy Authentication Required"
  | 408 => some "Request Timeout"
  | 409 => some "Conflict"
  | 410 => some "Gone"
  | 411 => some "Length Required"
  | 412 => some "Precondition Failed"
  | 413 => some "Payload Too Large"
  | 414 => some "URI Too Long"
  | 415 => some "Unsupported Media Type"
  | 416 => some "Range Not Satisfiable"
  | 417 => some "Expectation Failed"
  | 418 => some "I\x27m a teapot"
  | 421 => some "Misdirected Request"
  | 422 => some "Unprocessable Entity"
  | 423 => some "Locked"
  | 424 => some "Failed Dependency"
  | 425 => some "Too Early"
  | 426 => some "Upgrade Required"
  | 428 => some "Precondition Required"
  | 429 => some "Too Many Requests"
  | 431 => some "Request Header Fields Too Large"
  | 451 => some "Unavailable For Legal Reasons"
  | 500 => some "Internal Server Error"
  | 501 => some "Not Implemented"
  | 502 => some "Bad Gateway"
  | 503 => some "Service Unavailable"
  | 504 => some "Gateway Timeout"
  | 505 => some "HTTP Version Not Supported"
  | 506 => some "Variant Also Negotiates"
  | 507 => some "Insufficient Storage"
  | 508 => some "Loop Detected"
  | 510 => some "Not Extended"
  | 511 => some "Network Authentication Required"
  | _ => none

/-- `Display` of `StatusCode` (`status.to_string()` in `src/lib.rs`): the
code, a space, and the canonical reason phrase (or a fixed placeholder). -/
def statusToString (code : Nat) : String :=
  toString code ++ " " ++ ((canonicalReason code).getD "<unknown status code>")

/-! ## Request serialization

`#[derive(Serialize)]` with `#[serde(skip_serializing_if = "Option::is_none")]`
on every optional field: the JSON object holds the fields in declaration
order, and an optional field contributes a member exactly when it is
`some`. -/

/-- `TextModerationRequest`, `src/lib.rs` lines 26-39. -/
structure TextModerationRequest where
  content : String
  language : Option String
  replace : Option Bool
  pii : Option Bool
  replace_severity : Option String
  moderation_profile_id : Option String

/-- `ImageModerationRequest`, `src/lib.rs` lines 41-54. -/
structure ImageModerationRequest where
  image : String
  language : Option String
  moderation_profile_id : Option String
  enable_ocr : Option Bool
  enhanced_ocr : Option Bool
  extract_metadata : Option Bool

/-- The member an optional field contributes: none when skipped. -/
def optField (k : String) (v : Option Json) : List (String × Json) :=
  match v with
  | some j => [(k, j)]
  | none => []

/-- Derived `Serialize` of `TextModerationRequest` (wire names `content`,
`language`, `replace`, `pii`, `replaceSeverity`, `moderationProfileId`). -/
def TextModerationRequest.toJson (r : TextModerationRequest) : Json :=
  Json.obj ([("content", Json.str r.content)] ++
    optField "language" (r.language.map Json.str) ++
    optField "replace" (r.replace.map Json.bool) ++
    optField "pii" (r.pii.map Json.bool) ++
    optField "replaceSeverity" (r.replace_severity.map Json.str) ++
    optField "moderationProfileId" (r.moderation_profile_id.map Json.str))

/-- Derived `Serialize` of `ImageModerationRequest` (wire names `image`,
`language`, `moderationProfileId`, `enableOcr`, `enhancedOcr`,
`extractMetadata`). -/
def ImageModerationRequest.toJson (r : ImageModerationRequest) : Json :=
  Json.obj ([("image", Json.str r.image)] ++
    optField "language" (r.language.map Json.str) ++
    optField "moderationProfileId" (r.moderation_profile_id.map Json.str) ++
    optField "enableOcr" (r.enable_ocr.map Json.bool) ++
    optField "enhancedOcr" (r.enhanced_ocr.map Json.bool) ++
    optField "extractMetadata" (r.extract_metadata.map Json.bool))

/-- First value bound to a key in a JSON object's member list. -/
def lookupField : List (String × Json) → String → Option Json
  | [], _ => none
  | (k2, v) :: rest, k => if k2 = k then some v else lookupField rest k

/-- Number of members with the given key. -/
def countKey : List (String × Json) → String → Nat
  | [], _ => 0
  | (k2, _) :: rest, k => (if k2 = k then 1 else 0) + countKey rest k

/-- Key lookup in a serialized JSON object; `none` means the key is absent
altogether (in particular it is not sent as `null`). -/
def objLookup : Json → String → Option Json
  | Json.obj fields, k => lookupField fields k
  | _, _ => none

/-! ## Response handling and the four operations -/

/-- Non-2xx / success branching of `moderate_text`, `src/lib.rs` lines
141-156: on a non-2xx status, try `ProblemDetails` and build the `ApiError`
message `detail` / `title` / status line, else "{status} - {body}"; on 2xx,
`response.json::<ModerationResponse>()`, whose decode failure is a
`reqwest::Error` and therefore the `RequestError` variant. -/
def handle_text_response (response : HttpResponse) : Except SafeCommsError ModerationResponse :=
  if !(isSuccessStatus response.status) then
    match parseProblemDetails response.body with
    | some problem =>
      Except.error (SafeCommsError.ApiError
        ((problem.detail.or problem.title).getD (statusToString response.status)))
    | none =>
      Except.error (SafeCommsError.ApiError
        (statusToString response.status ++ " - " ++ response.body))
  else
    match (jsonParse response.body).bind deserializeModerationResponse with
    | some result => Except.ok result
    | none => Except.error (SafeCommsError.RequestError "error decoding response body")

/-- Same branching in `moderate_image`, `src/lib.rs` lines 170-184. -/
def handle_image_response (response : HttpResponse) : Except SafeCommsError ModerationResponse :=
  if !(isSuccessStatus response.status) then
    match parseProblemDetails response.body with
    | some problem =>
      Except.error (SafeCommsError.ApiError
        ((problem.detail.or problem.title).getD (statusToString response.status)))
    | none =>
      Except.error (SafeCommsError.ApiError
        (statusToString response.status ++ " - " ++ response.body))
  else
    match (jsonParse response.body).bind deserializeModerationResponse with
    | some result => Except.ok result
    | none => Except.error (SafeCommsError.RequestError "error decoding response body")

/-- Same branching in `moderate_image_file`, `src/lib.rs` lines 235-249. -/
def handle_upload_response (response : HttpResponse) : Except SafeCommsError ModerationResponse :=
  if !(isSuccessStatus response.status) then
    match parseProblemDetails response.body with
    | some problem =>
      Except.error (SafeCommsError.ApiError
        ((problem.detail.or problem.title).getD (statusToString response.status)))
    | none =>
      Except.error (SafeCommsError.ApiError
        (statusToString response.status ++ " - " ++ response.body))
  else
    match (jsonParse response.body).bind deserializeModerationResponse with
    | some result => Except.ok result
    | none => Except.error (SafeCommsError.RequestError "error decoding response body")

/-- Same branching in `get_usage`, `src/lib.rs` lines 259-271, decoding
`UsageResponse` on success. -/
def handle_usage_response (response : HttpResponse) : Except SafeCommsError UsageResponse :=
  if !(isSuccessStatus response.status) then
    match parseProblemDetails response.body with
    | some problem =>
      Except.error (SafeCommsError.ApiError
        ((problem.detail.or problem.title).getD (statusToString response.status)))
    | none =>
      Except.error (SafeCommsError.ApiError
        (statusToString response.status ++ " - " ++ response.body))
  else
    match (jsonParse response.body).bind deserializeUsageResponse with
    | some result => Except.ok result
    | none => Except.error (SafeCommsError.RequestError "error decoding response body")

/-- `SafeCommsClient::moderate_text`, `src/lib.rs` lines 116-157.  `send`
is the transport (`reqwest`): a failed send is a `reqwest::Error`, i.e. the
`RequestError` variant. -/
def SafeCommsClient.moderate_text (c : SafeCommsClient)
    (send : HttpRequest → Except String HttpResponse)
    (content : String) (language : Option String) (replace : Option Bool)
    (pii : Option Bool) (replace_severity : Option String)
    (moderation_profile_id : Option String) : Except SafeCommsError ModerationResponse :=
  let request : TextModerationRequest :=
    ⟨content, language, replace, pii, replace_severity, moderation_profile_id⟩
  match send { method := "POST", url := c.moderateTextUrl,
               authHeader := "Bearer " ++ c.api_key,
               body := RequestBody.jsonBody request.toJson } with
  | Except.error e => Except.error (SafeCommsError.RequestError e)
  | Except.ok response => handle_text_response response

/-- `SafeCommsClient::moderate_image`, `src/lib.rs` lines 159-185. -/
def SafeCommsClient.moderate_image (c : SafeCommsClient)
    (send : HttpRequest → Except String HttpResponse)
    (request : ImageModerationRequest) : Except SafeCommsError ModerationResponse :=
  match send { method := "POST", url := c.moderateImageUrl,
               authHeader := "Bearer " ++ c.api_key,
               body := RequestBody.jsonBody request.toJson } with
  | Except.error e => Except.error (SafeCommsError.RequestError e)
  | Except.ok response => handle_image_response response

/-- Split a character list at every occurrence of a separator (the
semantics of `String.splitOn` with a one-character separator). -/
def splitOnChar : List Char → Char → List (List Char)
  | [], _ => [[]]
  | c :: cs, sep =>
    if c = sep then [] :: splitOnChar cs sep
    else
      match splitOnChar cs sep with
      | r :: rs => (c :: r) :: rs
      | [] => [[c]]

/-- Rust `Path::file_name` on a Unix path: the last component after
ignoring empty and `.` components; `none` for an empty path, a root path,
or a path terminating in `..`. -/
def rustFileName (path : String) : Option String :=
  let parts := ((splitOnChar path.data '/').map String.mk).filter
    (fun seg => ¬ (seg = "" ∨ seg = "."))
  match parts.getLast? with
  | none => none
  | some lastSeg => if lastSeg = ".." then none else some lastSeg

/-- Upload file name of `moderate_image_file`, `src/lib.rs` lines 199-203:
`Path::new(file_path).file_name()` (UTF-8 conversion never fails on a
`String` path) with fallback `"image.jpg"`. -/
def uploadFileName (path : String) : String :=
  (rustFileName path).getD "image.jpg"

/-- Rust `bool::to_string`. -/
def boolToString (b : Bool) : String := if b then "true" else "false"

/-- Multipart form built in `src/lib.rs` lines 205-226: the `image` bytes
part first, then one text part per present optional argument. -/
def buildImageUploadForm (file_bytes : List Nat) (file_name : String)
    (language : Option String) (moderation_profile_id : Option String)
    (enable_ocr : Option Bool) (enhanced_ocr : Option Bool)
    (extract_metadata : Option Bool) : List FormPart :=
  [FormPart.filePart "image" file_name file_bytes] ++
  (match language with
   | some lang => [FormPart.textPart "language" lang]
   | none => []) ++
  (match moderation_profile_id with
   | some profile_id => [FormPart.textPart "moderationProfileId" profile_id]
   | none => []) ++
  (match enable_ocr with
   | some enable => [FormPart.textPart "enableOcr" (boolToString enable)]
   | none => []) ++
  (match enhanced_ocr with
   | some enhanced => [FormPart.textPart "enhancedOcr" (boolToString enhanced)]
   | none => []) ++
  (match extract_metadata with
   | some extract => [FormPart.textPart "extractMetadata" (boolToString extract)]
   | none => [])

/-- `SafeCommsClient::moderate_image_file`, `src/lib.rs` lines 187-250.
`fs` is `tokio::fs::read`; its failure message is the `Display` of the
`io::Error`. -/
def SafeCommsClient.moderate_image_file (c : SafeCommsClient)
    (fs : String → Except String (List Nat))
    (send : HttpRequest → Except String HttpResponse)
    (file_path : String) (language : Option String)
    (moderation_profile_id : Option String) (enable_ocr : Option Bool)
    (enhanced_ocr : Option Bool) (extract_metadata : Option Bool) :
    Except SafeCommsError ModerationResponse :=
  match fs file_path with
  | Except.error e => Except.error (SafeCommsError.ApiError ("Failed to read file: " ++ e))
  | Except.ok file_bytes =>
    let file_name := uploadFileName file_path
    let form := buildImageUploadForm file_bytes file_name language moderation_profile_id
      enable_ocr enhanced_ocr extract_metadata
    match send { method := "POST", url := c.moderateImageUploadUrl,
                 authHeader := "Bearer " ++ c.api_key,
                 body := RequestBody.formBody form } with
    | Except.error e => Except.error (SafeCommsError.RequestError e)
    | Except.ok response => handle_upload_response response

/-- `SafeCommsClient::get_usage`, `src/lib.rs` lines 252-272. -/
def SafeCommsClient.get_usage (c : SafeCommsClient)
    (send : HttpRequest → Except String HttpResponse) :
    Except SafeCommsError UsageResponse :=
  match send { method := "GET", url := c.usageUrl,
               authHeader := "Bearer " ++ c.api_key,
               body := RequestBody.noBody } with
  | Except.error e => Except.error (SafeCommsError.RequestError e)
  | Except.ok response => handle_usage_response response

/-! ## Helper lemmas -/

/-- The string ends with the character `c`. -/
def endsWithChar (s : String) (c : Char) : Bool :=
  decide (s.data.getLast? = some c)

theorem head_dropWhile_ne {o : Type} (p : o → Bool) (l : List o) (x : o)
    (h : (l.dropWhile p).head? = some x) : p x = false := by
  induction l with
  | nil => simp [List.dropWhile] at h
  | cons a as ih =>
    rw [List.dropWhile_cons] at h
    by_cases hp : p a
    · rw [if_pos hp] at h
      exact ih h
    · rw [if_neg hp] at h
      simp only [List.head?_cons, Option.some.injEq] at h
      subst h
      exact Bool.eq_false_iff.mpr hp

theorem trimEndMatches_not_endsWith (s : String) (c : Char) :
    endsWithChar (trimEndMatches s c) c = false := by
  unfold endsWithChar trimEndMatches
  simp only [decide_eq_false_iff_not]
  intro h
  rw [List.getLast?_reverse] at h
  have hfalse := head_dropWhile_ne (fun x => x = c) s.data.reverse c h
  simp at hfalse

theorem trimEndMatches_decomposition (s : String) (c : Char) :
    ∃ n, s.data = (trimEndMatches s c).data ++ List.replicate n c := by
  refine ⟨(s.data.reverse.takeWhile (fun x => x = c)).length, ?_⟩
  have htake : s.data.reverse.takeWhile (fun x => x = c) =
      List.replicate (s.data.reverse.takeWhile (fun x => x = c)).length c := by
    apply List.eq_replicate_of_mem
    intro b hb
    have hmem := List.mem_takeWhile_imp hb
    simpa using hmem
  calc s.data
      = s.data.reverse.reverse := (List.reverse_reverse _).symm
    _ = (s.data.reverse.takeWhile (fun x => x = c) ++
          s.data.reverse.dropWhile (fun x => x = c)).reverse := by
        rw [List.takeWhile_append_dropWhile]
    _ = (s.data.reverse.dropWhile (fun x => x = c)).reverse ++
          (s.data.reverse.takeWhile (fun x => x = c)).reverse := by
        rw [List.reverse_append]
    _ = (trimEndMatches s c).data ++ List.replicate
          (s.data.reverse.takeWhile (fun x => x = c)).length c := by
        rw [htake, List.reverse_replicate]
        simp [trimEndMatches]

/-! ## Claim theorems -/

/-- C2: serializing a `TextModerationRequest` or an `ImageModerationRequest`
produces a JSON object in which an optional field left `none` contributes no
key at all (in particular not a `null` member), while a field that is set —
including to `false` or to the empty string — contributes its key with its
value; the required `content` / `image` field is always present. -/
theorem optional_request_fields_omitted (r : TextModerationRequest)
    (ir : ImageModerationRequest) :
    objLookup r.toJson "content" = some (Json.str r.content) ∧
    objLookup r.toJson "language" = r.language.map Json.str ∧
    objLookup r.toJson "replace" = r.replace.map Json.bool ∧
    objLookup r.toJson "pii" = r.pii.map Json.bool ∧
    objLookup r.toJson "replaceSeverity" = r.replace_severity.map Json.str ∧
    objLookup r.toJson "moderationProfileId" = r.moderation_profile_id.map Json.str ∧
    objLookup ir.toJson "image" = some (Json.str ir.image) ∧
    objLookup ir.toJson "language" = ir.language.map Json.str ∧
    objLookup ir.toJson "moderationProfileId" = ir.moderation_profile_id.map Json.str ∧
    objLookup ir.toJson "enableOcr" = ir.enable_ocr.map Json.bool ∧
    objLookup ir.toJson "enhancedOcr" = ir.enhanced_ocr.map Json.bool ∧
    objLookup ir.toJson "extractMetadata" = ir.extract_metadata.map Json.bool := by
  obtain ⟨c, l, rp, pi, rs, mp⟩ := r
  obtain ⟨im, il, ip, eo, ho, em⟩ := ir
  refine ⟨?_, ?_, ?_, ?_, ?_, ?_, ?_, ?_, ?_, ?_, ?_, ?_⟩ <;>
    first
    | (cases l <;> cases rp <;> cases pi <;> cases rs <;> cases mp <;> rfl)
    | (cases il <;> cases ip <;> cases eo <;> cases ho <;> cases em <;> rfl)

/-- C4: for every constructed client (explicit base URL or the default),
the stored base URL is the supplied one with every trailing `/` removed —
so it never ends in `/` — and each operation's request URL is the stored
base URL followed by the operation's absolute path, hence with no double
slash at the join point; in particular `https://x.test///` yields the
request URL `https://x.test/moderation/text`. -/
theorem base_url_trailing_slashes_stripped (api_key : String) (base_url : String) :
    endsWithChar (SafeCommsClient.new api_key (some base_url)).base_url '/' = false ∧
    (∃ n, base_url.data =
      (SafeCommsClient.new api_key (some base_url)).base_url.data ++
        List.replicate n '/') ∧
    (SafeCommsClient.new api_key (some base_url)).moderateTextUrl =
      (SafeCommsClient.new api_key (some base_url)).base_url ++ "/moderation/text" ∧
    (SafeCommsClient.new api_key (some base_url)).moderateImageUrl =
      (SafeCommsClient.new api_key (some base_url)).base_url ++ "/moderation/image" ∧
    (SafeCommsClient.new api_key (some base_url)).moderateImageUploadUrl =
      (SafeCommsClient.new api_key (some base_url)).base_url ++ "/moderation/image/upload" ∧
    (SafeCommsClient.new api_key (some base_url)).usageUrl =
      (SafeCommsClient.new api_key (some base_url)).base_url ++ "/usage" ∧
    endsWithChar (SafeCommsClient.new api_key none).base_url '/' = false ∧
    (SafeCommsClient.new api_key (some "https://x.test///")).moderateTextUrl =
      "https://x.test/moderation/text" := by
  refine ⟨trimEndMatches_not_endsWith base_url '/', trimEndMatches_decomposition base_url '/',
    rfl, rfl, rfl, rfl, trimEndMatches_not_endsWith DEFAULT_BASE_URL '/', rfl⟩

/-- C5: when reading the file fails, `moderate_image_file` returns the
`ApiError` kind carrying "Failed to read file: " followed by the read
failure's description, for every transport `send` — the result does not
depend on the network at all, so no network call decides it. -/
theorem file_read_failure_before_network (c : SafeCommsClient)
    (fs : String → Except String (List Nat))
    (send : HttpRequest → Except String HttpResponse)
    (file_path : String) (language : Option String)
    (moderation_profile_id : Option String) (enable_ocr : Option Bool)
    (enhanced_ocr : Option Bool) (extract_metadata : Option Bool) (e : String)
    (h : fs file_path = Except.error e) :
    c.moderate_image_file fs send file_path language moderation_profile_id enable_ocr
      enhanced_ocr extract_metadata =
      Except.error (SafeCommsError.ApiError ("Failed to read file: " ++ e)) := by
  unfold SafeCommsClient.moderate_image_file
  rw [h]

/-- Witness for C5 at a nonexistent path, with the message of the Rust
`io::Error` for ENOENT. -/
theorem file_read_failure_before_network_witness :
    (fun _ => (Except.error "No such file or directory (os error 2)" :
        Except String (List Nat))) "/no/such/file.png" =
      Except.error "No such file or directory (os error 2)" ∧
    (SafeCommsClient.new "k" none).moderate_image_file
        (fun _ => Except.error "No such file or directory (os error 2)")
        (fun _ => Except.ok ⟨200, "x"⟩) "/no/such/file.png" none none none none none =
      Except.error (SafeCommsError.ApiError
        ("Failed to read file: " ++ "No such file or directory (os error 2)")) :=
  ⟨rfl, file_read_failure_before_network _ _ _ _ _ _ _ _ _ _ rfl⟩

/-- True on the byte part of a multipart form. -/
def isFilePartB : FormPart → Bool
  | FormPart.filePart _ _ _ => true
  | FormPart.textPart _ _ => false

/-- Values of the text parts carrying the given part name, in order. -/
def textValues (parts : List FormPart) (n : String) : List String :=
  parts.foldr
    (fun p acc =>
      match p with
      | FormPart.textPart n2 v => if n2 = n then v :: acc else acc
      | FormPart.filePart _ _ _ => acc)
    []

/-- C7: the multipart form of `moderate_image_file` holds exactly one byte
part, named `image`, with the derived file name and the file bytes; and for
each optional argument exactly one text part when it is present (named
`language`, `moderationProfileId`, `enableOcr`, `enhancedOcr`,
`extractMetadata`, booleans rendered "true"/"false") and none when absent. -/
theorem upload_form_structure (file_bytes : List Nat) (file_path : String)
    (language : Option String) (moderation_profile_id : Option String)
    (enable_ocr : Option Bool) (enhanced_ocr : Option Bool)
    (extract_metadata : Option Bool) :
    (buildImageUploadForm file_bytes (uploadFileName file_path) language
        moderation_profile_id enable_ocr enhanced_ocr extract_metadata).filter isFilePartB =
      [FormPart.filePart "image" (uploadFileName file_path) file_bytes] ∧
    textValues (buildImageUploadForm file_bytes (uploadFileName file_path) language
        moderation_profile_id enable_ocr enhanced_ocr extract_metadata) "language" =
      language.toList ∧
    textValues (buildImageUploadForm file_bytes (uploadFileName file_path) language
        moderation_profile_id enable_ocr enhanced_ocr extract_metadata) "moderationProfileId" =
      moderation_profile_id.toList ∧
    textValues (buildImageUploadForm file_bytes (uploadFileName file_path) language
        moderation_profile_id enable_ocr enhanced_ocr extract_metadata) "enableOcr" =
      (enable_ocr.map boolToString).toList ∧
    textValues (buildImageUploadForm file_bytes (uploadFileName file_path) language
        moderation_profile_id enable_ocr enhanced_ocr extract_metadata) "enhancedOcr" =
      (enhanced_ocr.map boolToString).toList ∧
    textValues (buildImageUploadForm file_bytes (uploadFileName file_path) language
        moderation_profile_id enable_ocr enhanced_ocr extract_metadata) "extractMetadata" =
      (extract_metadata.map boolToString).toList := by
  cases language <;> cases moderation_profile_id <;> cases enable_ocr <;>
    cases enhanced_ocr <;> cases extract_metadata <;>
    exact ⟨rfl, rfl, rfl, rfl, rfl, rfl⟩

/-- C8: with an absent base URL the client stores the fixed default
endpoint `https://api.safecomms.dev`, and each operation's request URL is
that endpoint followed by the operation's path. -/
theorem default_base_url_endpoint (api_key : String) :
    (SafeCommsClient.new api_key none).base_url = "https://api.safecomms.dev" ∧
    (SafeCommsClient.new api_key none).moderateTextUrl =
      "https://api.safecomms.dev/moderation/text" ∧
    (SafeCommsClient.new api_key none).moderateImageUrl =
      "https://api.safecomms.dev/moderation/image" ∧
    (SafeCommsClient.new api_key none).moderateImageUploadUrl =
      "https://api.safecomms.dev/moderation/image/upload" ∧
    (SafeCommsClient.new api_key none).usageUrl =
      "https://api.safecomms.dev/usage" :=
  ⟨rfl, rfl, rfl, rfl, rfl⟩

/-- C10: a base URL consisting only of `/` characters is stored as the
empty string, so each operation's request URL is the bare path. -/
theorem slash_only_base_url_empty (api_key : String) :
    (SafeCommsClient.new api_key (some "/")).base_url = "" ∧
    (SafeCommsClient.new api_key (some "///")).base_url = "" ∧
    (SafeCommsClient.new api_key (some "///")).moderateTextUrl = "/moderation/text" ∧
    (SafeCommsClient.new api_key (some "///")).moderateImageUrl = "/moderation/image" ∧
    (SafeCommsClient.new api_key (some "///")).moderateImageUploadUrl =
      "/moderation/image/upload" ∧
    (SafeCommsClient.new api_key (some "///")).usageUrl = "/usage" :=
  ⟨rfl, rfl, rfl, rfl, rfl, rfl⟩

example : rustFileName "" = none := by rfl
example : rustFileName "/" = none := by rfl
example : rustFileName "a/b" = some "b" := by rfl
example : rustFileName "a/b/" = some "b" := by rfl
example : rustFileName "a/.." = none := by rfl
example : rustFileName "./a" = some "a" := by rfl
example : rustFileName "a/./." = some "a" := by rfl

theorem handle_text_response_api_error (resp : HttpResponse)
    (h : isSuccessStatus resp.status = false) :
    handle_text_response resp = Except.error (SafeCommsError.ApiError
      (match parseProblemDetails resp.body with
       | some problem => (problem.detail.or problem.title).getD (statusToString resp.status)
       | none => statusToString resp.status ++ " - " ++ resp.body)) := by
  unfold handle_text_response
  rw [h]
  cases hp : parseProblemDetails resp.body <;> simp [hp]

theorem handle_image_response_api_error (resp : HttpResponse)
    (h : isSuccessStatus resp.status = false) :
    handle_image_response resp = Except.error (SafeCommsError.ApiError
      (match parseProblemDetails resp.body with
       | some problem => (problem.detail.or problem.title).getD (statusToString resp.status)
       | none => statusToString resp.status ++ " - " ++ resp.body)) := by
  unfold handle_image_response
  rw [h]
  cases hp : parseProblemDetails resp.body <;> simp [hp]

theorem handle_upload_response_api_error (resp : HttpResponse)
    (h : isSuccessStatus resp.status = false) :
    handle_upload_response resp = Except.error (SafeCommsError.ApiError
      (match parseProblemDetails resp.body with
       | some problem => (problem.detail.or problem.title).getD (statusToString resp.status)
       | none => statusToString resp.status ++ " - " ++ resp.body)) := by
  unfold handle_upload_response
  rw [h]
  cases hp : parseProblemDetails resp.body <;> simp [hp]

theorem handle_usage_response_api_error (resp : HttpResponse)
    (h : isSuccessStatus resp.status = false) :
    handle_usage_response resp = Except.error (SafeCommsError.ApiError
      (match parseProblemDetails resp.body with
       | some problem => (problem.detail.or problem.title).getD (statusToString resp.status)
       | none => statusToString resp.status ++ " - " ++ resp.body)) := by
  unfold handle_usage_response
  rw [h]
  cases hp : parseProblemDetails resp.body <;> simp [hp]

/-- C1 (amended): for every operation, a non-2xx response produces the
`ApiError` kind, with the message resolved as the parsed `detail` if
present, else the parsed `title` if present, else the status line
"{code} {canonical reason}"; when the body does not parse as
`ProblemDetails` the message is the status line, " - ", and the raw body —
so the non-JSON body "oops" with status 500 yields exactly
"500 Internal Server Error - oops" (the `Display` of the status includes
the reason phrase), not "500 - oops". -/
theorem error_message_resolution (resp : HttpResponse)
    (h : isSuccessStatus resp.status = false) :
    handle_text_response resp = Except.error (SafeCommsError.ApiError
      (match parseProblemDetails resp.body with
       | some problem => (problem.detail.or problem.title).getD (statusToString resp.status)
       | none => statusToString resp.status ++ " - " ++ resp.body)) ∧
    handle_image_response resp = Except.error (SafeCommsError.ApiError
      (match parseProblemDetails resp.body with
       | some problem => (problem.detail.or problem.title).getD (statusToString resp.status)
       | none => statusToString resp.status ++ " - " ++ resp.body)) ∧
    handle_upload_response resp = Except.error (SafeCommsError.ApiError
      (match parseProblemDetails resp.body with
       | some problem => (problem.detail.or problem.title).getD (statusToString resp.status)
       | none => statusToString resp.status ++ " - " ++ resp.body)) ∧
    handle_usage_response resp = Except.error (SafeCommsError.ApiError
      (match parseProblemDetails resp.body with
       | some problem => (problem.detail.or problem.title).getD (statusToString resp.status)
       | none => statusToString resp.status ++ " - " ++ resp.body)) ∧
    handle_text_response ⟨500, "\x7b\"detail\":\"D\"\x7d"⟩ =
      Except.error (SafeCommsError.ApiError "D") ∧
    handle_text_response ⟨500, "\x7b\"title\":\"T\"\x7d"⟩ =
      Except.error (SafeCommsError.ApiError "T") ∧
    handle_text_response ⟨500, "\x7b\x7d"⟩ =
      Except.error (SafeCommsError.ApiError "500 Internal Server Error") ∧
    handle_text_response ⟨500, "oops"⟩ =
      Except.error (SafeCommsError.ApiError "500 Internal Server Error - oops") :=
  ⟨handle_text_response_api_error resp h, handle_image_response_api_error resp h,
   handle_upload_response_api_error resp h, handle_usage_response_api_error resp h,
   rfl, rfl, rfl, rfl⟩

/-- Witness for C1's amended theorem at status 404 and body "nope". -/
theorem error_message_resolution_witness :
    isSuccessStatus 404 = false ∧
    handle_text_response ⟨404, "nope"⟩ =
      Except.error (SafeCommsError.ApiError "404 Not Found - nope") :=
  ⟨rfl, ((error_message_resolution ⟨404, "nope"⟩ rfl).1).trans rfl⟩

/-- C1 counterexample: with status 500 and the non-JSON body "oops" the
message is "500 Internal Server Error - oops" — not "500 - oops" as the
claim states. -/
theorem error_message_fallback_counterexample :
    handle_text_response ⟨500, "oops"⟩ =
      Except.error (SafeCommsError.ApiError "500 Internal Server Error - oops") ∧
    "500 Internal Server Error - oops" ≠ "500 - oops" :=
  ⟨rfl, by decide⟩

/-- C3 (amended): a 2xx response whose body does not decode as the expected
success schema fails, but the failure is surfaced as the transport error
kind `RequestError` — `response.json()` returns a `reqwest::Error`, which
`#[from] reqwest::Error` converts — not as the `SerializationError` kind. -/
theorem decode_failure_request_error (resp : HttpResponse)
    (h1 : isSuccessStatus resp.status = true)
    (h2 : (jsonParse resp.body).bind deserializeModerationResponse = none)
    (h3 : (jsonParse resp.body).bind deserializeUsageResponse = none) :
    handle_text_response resp =
      Except.error (SafeCommsError.RequestError "error decoding response body") ∧
    handle_image_response resp =
      Except.error (SafeCommsError.RequestError "error decoding response body") ∧
    handle_upload_response resp =
      Except.error (SafeCommsError.RequestError "error decoding response body") ∧
    handle_usage_response resp =
      Except.error (SafeCommsError.RequestError "error decoding response body") ∧
    (SafeCommsError.RequestError "error decoding response body").isRequestFailure = true ∧
    (SafeCommsError.RequestError "error decoding response body").isSerializationFailure =
      false := by
  refine ⟨?_, ?_, ?_, ?_, rfl, rfl⟩ <;>
    simp [handle_text_response, handle_image_response, handle_upload_response,
      handle_usage_response, h1, h2, h3]

/-- Witness for C3's amended theorem: a 2xx body missing the required
`isBypassAttempt` field. -/
theorem decode_failure_request_error_witness :
    isSuccessStatus 200 = true ∧
    (jsonParse "\x7b\"isClean\":true\x7d").bind deserializeModerationResponse = none ∧
    (jsonParse "\x7b\"isClean\":true\x7d").bind deserializeUsageResponse = none ∧
    handle_text_response ⟨200, "\x7b\"isClean\":true\x7d"⟩ =
      Except.error (SafeCommsError.RequestError "error decoding response body") :=
  ⟨rfl, rfl, rfl,
   (decode_failure_request_error ⟨200, "\x7b\"isClean\":true\x7d"⟩ rfl rfl rfl).1⟩

/-- C3 counterexample: on a 2xx response whose body `\x7b\x7d` is missing the
required fields, `moderate_text` surfaces the `RequestError` kind, not the
serialization/deserialization kind the claim names. -/
theorem decode_failure_kind_counterexample :
    (SafeCommsClient.new "key" none).moderate_text
        (fun _ => Except.ok ⟨200, "\x7b\x7d"⟩) "hello" none none none none none =
      Except.error (SafeCommsError.RequestError "error decoding response body") ∧
    (SafeCommsError.RequestError "error decoding response body").isSerializationFailure =
      false :=
  ⟨rfl, rfl⟩

/-- C6 (amended): the upload file name is the path's final normal
component (Rust `Path::file_name`), and the fixed placeholder "image.jpg"
is used exactly when no such component exists — empty path, root path, or
a path whose final component is `.` or `..`; a path that merely ends in a
directory separator after a normal segment uses that segment, not the
placeholder. -/
theorem upload_file_name_spec (p : String) :
    (uploadFileName p = "image.jpg" ↔
      (rustFileName p = none ∨ rustFileName p = some "image.jpg")) ∧
    uploadFileName "" = "image.jpg" ∧
    uploadFileName "/" = "image.jpg" ∧
    uploadFileName "a/.." = "image.jpg" ∧
    uploadFileName "a/b.png/" = "b.png" := by
  refine ⟨?_, rfl, rfl, rfl, rfl⟩
  unfold uploadFileName
  cases hf : rustFileName p with
  | none => simp
  | some s => simp

/-- C6 counterexample: the path "a/photo.png/" ends in the directory
separator, yet the upload name is its final segment "photo.png", not the
"image.jpg" placeholder the claim requires for such paths. -/
theorem upload_file_name_counterexample :
    endsWithChar "a/photo.png/" '/' = true ∧
    uploadFileName "a/photo.png/" = "photo.png" ∧
    "photo.png" ≠ "image.jpg" :=
  ⟨by decide, rfl, by decide⟩

/-- The string value of a member, when present with a string value; `none`
when the member is absent or holds `null` (serde maps both to `None`). -/
def optStrField (fields : List (String × Json)) (k : String) : Option String :=
  match lookupField fields k with
  | some (Json.str s) => some s
  | _ => none

/-- What a member-scan slot contributes at the end of the scan. -/
def slotResult (slot : Option (Option String)) (v : Option String) : Option String :=
  match slot with
  | some s => s
  | none => v

theorem pdLoop_spec (fields : List (String × Json)) :
    ∀ (d t : Option (Option String)),
    countKey fields "detail" ≤ 1 → countKey fields "title" ≤ 1 →
    (∀ kv ∈ fields, (kv.1 = "detail" ∨ kv.1 = "title") →
      (decodeOpt decodeString kv.2).isSome = true) →
    (d.isSome = true → countKey fields "detail" = 0) →
    (t.isSome = true → countKey fields "title" = 0) →
    pdLoop fields d t =
      some ⟨slotResult d (optStrField fields "detail"),
            slotResult t (optStrField fields "title")⟩ := by
  induction fields with
  | nil =>
    intro d t _ _ _ _ _
    cases d <;> cases t <;> rfl
  | cons kv rest ih =>
    obtain ⟨k, v⟩ := kv
    intro d t h1 h2 hv hd ht
    by_cases hk : k = "detail"
    · subst hk
      have hcount : countKey (("detail", v) :: rest) "detail" =
          1 + countKey rest "detail" := by simp [countKey]
      have hrest0 : countKey rest "detail" = 0 := by
        rw [hcount] at h1; omega
      have hdnone : d = none := by
        cases d with
        | none => rfl
        | some x =>
          have h0 := hd rfl
          rw [hcount] at h0
          omega
      subst hdnone
      have hvs := hv ("detail", v) (List.mem_cons_self _ _) (Or.inl rfl)
      obtain ⟨s, hs⟩ := Option.isSome_iff_exists.mp hvs
      have hstep : pdLoop (("detail", v) :: rest) none t = pdLoop rest (some s) t := by
        simp [pdLoop, hs]
      rw [hstep,
        ih (some s) t (by omega) (by simpa [countKey] using h2)
          (fun kv2 hm hor => hv kv2 (List.mem_cons_of_mem _ hm) hor)
          (fun _ => hrest0)
          (fun hts => by simpa [countKey] using ht hts)]
      have hdetail : optStrField (("detail", v) :: rest) "detail" = s := by
        cases v <;> simp [decodeOpt, decodeString] at hs <;>
          simp [optStrField, lookupField, ← hs]
      have htitle : optStrField (("detail", v) :: rest) "title" =
          optStrField rest "title" := by
        simp [optStrField, lookupField]
      rw [hdetail, htitle]
      rfl
    · by_cases hk2 : k = "title"
      · subst hk2
        have hcount : countKey (("title", v) :: rest) "title" =
            1 + countKey rest "title" := by simp [countKey]
        have hrest0 : countKey rest "title" = 0 := by
          rw [hcount] at h2; omega
        have htnone : t = none := by
          cases t with
          | none => rfl
          | some x =>
            have h0 := ht rfl
            rw [hcount] at h0
            omega
        subst htnone
        have hvs := hv ("title", v) (List.mem_cons_self _ _) (Or.inr rfl)
        obtain ⟨s, hs⟩ := Option.isSome_iff_exists.mp hvs
        have hstep : pdLoop (("title", v) :: rest) d none = pdLoop rest d (some s) := by
          simp [pdLoop, hs, hk]
        rw [hstep,
          ih d (some s) (by simpa [countKey, hk] using h1) (by omega)
            (fun kv2 hm hor => hv kv2 (List.mem_cons_of_mem _ hm) hor)
            (fun hds => by simpa [countKey, hk] using hd hds)
            (fun _ => hrest0)]
        have htitle : optStrField (("title", v) :: rest) "title" = s := by
          cases v <;> simp [decodeOpt, decodeString] at hs <;>
            simp [optStrField, lookupField, ← hs]
        have hdetail : optStrField (("title", v) :: rest) "detail" =
            optStrField rest "detail" := by
          simp [optStrField, lookupField, hk]
        rw [hdetail, htitle]
        rfl
      · have hstep : pdLoop ((k, v) :: rest) d t = pdLoop rest d t := by
          simp [pdLoop, hk, hk2]
        have hcd : countKey ((k, v) :: rest) "detail" = countKey rest "detail" := by
          simp [countKey, hk]
        have hct : countKey ((k, v) :: rest) "title" = countKey rest "title" := by
          simp [countKey, hk2]
        rw [hcd] at h1
        rw [hct] at h2
        rw [hstep,
          ih d t h1 h2 (fun kv2 hm hor => hv kv2 (List.mem_cons_of_mem _ hm) hor)
            (fun hds => hcd ▸ hd hds) (fun hts => hct ▸ ht hts)]
        have hdetail : optStrField ((k, v) :: rest) "detail" =
            optStrField rest "detail" := by
          simp [optStrField, lookupField, hk]
        have htitle : optStrField ((k, v) :: rest) "title" =
            optStrField rest "title" := by
          simp [optStrField, lookupField, hk2]
        rw [hdetail, htitle]

/-- C9 (amended): for every non-2xx response whose body is a valid JSON
object in which `detail` and `title` each occur at most once and, when
present, hold a string or `null`, the `ProblemDetails` parse succeeds —
unknown members are ignored whatever their values — the raw body text is
discarded and the message is the detail / title / status-line chain.  (The
raw-body fallback still arises for some valid JSON objects: one with an
ill-typed or duplicated `detail`/`title` member fails to deserialize.) -/
theorem problem_details_object_parse (status : Nat) (body : String)
    (fields : List (String × Json))
    (hparse : jsonParse body = some (Json.obj fields))
    (h1 : countKey fields "detail" ≤ 1) (h2 : countKey fields "title" ≤ 1)
    (hv : ∀ kv ∈ fields, (kv.1 = "detail" ∨ kv.1 = "title") →
      (decodeOpt decodeString kv.2).isSome = true)
    (hs : isSuccessStatus status = false) :
    parseProblemDetails body =
      some ⟨optStrField fields "detail", optStrField fields "title"⟩ ∧
    handle_text_response ⟨status, body⟩ = Except.error (SafeCommsError.ApiError
      (((optStrField fields "detail").or (optStrField fields "title")).getD
        (statusToString status))) := by
  have hobj : deserializeProblemDetails (Json.obj fields) = pdLoop fields none none := rfl
  have hpd : parseProblemDetails body =
      some ⟨optStrField fields "detail", optStrField fields "title"⟩ := by
    unfold parseProblemDetails
    rw [hparse]
    show deserializeProblemDetails (Json.obj fields) = _
    rw [hobj, pdLoop_spec fields none none h1 h2 hv (by simp) (by simp)]
    rfl
  refine ⟨hpd, ?_⟩
  have h3 := handle_text_response_api_error ⟨status, body⟩ hs
  rw [h3]
  simp only [hpd]

/-- Witness for C9's amended theorem: body with an ignored number-valued
member `foo` and a string `title`. -/
theorem problem_details_object_parse_witness :
    jsonParse "\x7b\"foo\":1,\"title\":\"T\"\x7d" =
      some (Json.obj [("foo", Json.num "1"), ("title", Json.str "T")]) ∧
    countKey [("foo", Json.num "1"), ("title", Json.str "T")] "detail" ≤ 1 ∧
    countKey [("foo", Json.num "1"), ("title", Json.str "T")] "title" ≤ 1 ∧
    isSuccessStatus 404 = false ∧
    handle_text_response ⟨404, "\x7b\"foo\":1,\"title\":\"T\"\x7d"⟩ =
      Except.error (SafeCommsError.ApiError "T") :=
  ⟨rfl, by decide, by decide, rfl,
   ((problem_details_object_parse 404 "\x7b\"foo\":1,\"title\":\"T\"\x7d"
      [("foo", Json.num "1"), ("title", Json.str "T")] rfl (by decide) (by decide)
      (by decide) rfl).2).trans rfl⟩

/-- C9 counterexample: `\x7b"detail":123\x7d` is a valid JSON object, yet
the `ProblemDetails` parse fails on the ill-typed `detail` member, so the
"{status line} - {raw body}" fallback is produced for a valid-JSON-object
body, contradicting the claim that every valid JSON object parses. -/
theorem problem_details_object_parse_counterexample :
    jsonParse "\x7b\"detail\":123\x7d" = some (Json.obj [("detail", Json.num "123")]) ∧
    parseProblemDetails "\x7b\"detail\":123\x7d" = none ∧
    handle_text_response ⟨500, "\x7b\"detail\":123\x7d"⟩ =
      Except.error (SafeCommsError.ApiError
        ("500 Internal Server Error - \x7b\"detail\":123\x7d")) :=
  ⟨rfl, rfl, rfl⟩
